import Mathlib

/-!
Verification of an MCP security-testing client (challenge agents, heuristic
hint agent, orchestrator, and MCP protocol session client) against its
specification.  The Python sources are shallowly embedded: pure data flow is
translated to Lean functions, the transport/session layer is abstracted as an
`Except`-valued outcome (success result or the message of the raised
exception), and the LLM is a parameter `List Msg → Msg`.
-/

/-! ## String helpers (Python `in`, `str.lower`, prefix tests) -/

/-- Boolean substring test on character lists: `pat` occurs inside the list. -/
def infixOfB (pat : List Char) : List Char → Bool
  | [] => pat.isEmpty
  | c :: rest => pat.isPrefixOf (c :: rest) || infixOfB pat rest

/-- Python `pat in hay` for strings (substring containment). -/
def strContains (hay pat : String) : Bool :=
  infixOfB pat.data hay.data

/-- Boolean string prefix test. -/
def strStartsWith (s p : String) : Bool :=
  p.data.isPrefixOf s.data

/-- Python `str.lower()` (ASCII case folding, as used by the sources). -/
def strLower (s : String) : String :=
  String.mk (s.data.map Char.toLower)

/-! ## `json.dumps(..., indent=2)`

The sources serialize every marshalled result with `json.dumps(x, indent=2)`.
The values serialized are at most three levels deep (arrays of flat objects,
plus the nested `arguments` array of `list_prompts` and the `messages` object
of `get_prompt`), so rendering is compositional: containers receive their
children already rendered at the appropriate depth. -/

/-- `2*d` spaces of indentation. -/
def pad (d : Nat) : String :=
  String.mk (List.replicate (2 * d) ' ')

/-- One hexadecimal digit (lowercase), as CPython's json encoder emits. -/
def hexDigit (n : Nat) : Char :=
  if n < 10 then Char.ofNat (48 + n) else Char.ofNat (87 + n)

/-- Four hexadecimal digits for a `\uXXXX` escape. -/
def hex4 (n : Nat) : String :=
  String.mk [hexDigit (n / 4096 % 16), hexDigit (n / 256 % 16),
             hexDigit (n / 16 % 16), hexDigit (n % 16)]

/-- CPython `json` escaping of one character with `ensure_ascii=True`
(the default used by the sources). -/
def escapeChar (c : Char) : String :=
  if c = '"' then "\\\""
  else if c = '\\' then "\\\\"
  else if c = '\n' then "\\n"
  else if c = '\r' then "\\r"
  else if c = '\t' then "\\t"
  else if c.toNat = 8 then "\\b"
  else if c.toNat = 12 then "\\f"
  else if c.toNat < 32 then "\\u" ++ hex4 c.toNat
  else if c.toNat < 127 then String.mk [c]
  else if c.toNat < 65536 then "\\u" ++ hex4 c.toNat
  else
    "\\u" ++ hex4 (55296 + (c.toNat - 65536) / 1024) ++
    "\\u" ++ hex4 (56320 + (c.toNat - 65536) % 1024)

/-- A JSON string literal: quoted and escaped. -/
def jsonQuote (s : String) : String :=
  "\"" ++ String.join (s.data.map escapeChar) ++ "\""

/-- Render a JSON object at depth `d` from fields whose values are already
rendered (insertion order preserved, exactly `json.dumps(..., indent=2)`). -/
def dumpObj (d : Nat) (fields : List (String × String)) : String :=
  match fields with
  | [] => "\x7b\x7d"
  | _ =>
    "\x7b\n" ++
    String.intercalate ",\n"
      (fields.map (fun kv => pad (d + 1) ++ jsonQuote kv.1 ++ ": " ++ kv.2)) ++
    "\n" ++ pad d ++ "\x7d"

/-- Render a JSON array at depth `d` from already rendered items. -/
def dumpArr (d : Nat) (items : List String) : String :=
  match items with
  | [] => "[]"
  | _ =>
    "[\n" ++
    String.intercalate ",\n" (items.map (fun s => pad (d + 1) ++ s)) ++
    "\n" ++ pad d ++ "]"

/-- A field emitted only when the attribute is present and truthy, modelling
the sources' `if hasattr(x, k) and x.k:` guards (`none` = attribute missing,
`some ""` = present but falsy). -/
def optField (key : String) (v : Option String) : List (String × String) :=
  match v with
  | some s => if s = "" then [] else [(key, jsonQuote s)]
  | none => []

/-! ## Result marshalling (`mcp_client.py`, duplicated in `hint_agent.py`)

Raw protocol responses are duck-typed in the sources; each `hasattr` check
becomes an `Option` field or a constructor choice. -/

/-- One item of `result.content` from `call_tool`: either it has a `.text`
attribute or it is stringified as a fallback. -/
inductive ContentItem where
  | withText (text : String)
  | other (repr : String)
deriving DecidableEq

/-- `mcp_client.execute_tool` marshalling of one content item. -/
def contentItemDump : ContentItem → String
  | ContentItem.withText t => dumpObj 1 [("type", jsonQuote "text"), ("text", jsonQuote t)]
  | ContentItem.other r => jsonQuote r

/-- The `content_list` built by the `for item in result.content` loop:
one output record per input item, in order. -/
def content_list : List ContentItem → List String
  | [] => []
  | item :: rest => contentItemDump item :: content_list rest

/-- The `call_tool` protocol result (`result.content`). -/
structure CallToolResult where
  content : List ContentItem
deriving DecidableEq

/-- One item of `result.contents` from `read_resource`; `uri` is the optional
truthy `.uri` attribute. -/
inductive ResContentItem where
  | withText (text : String) (uri : Option String)
  | other (repr : String)
deriving DecidableEq

/-- `mcp_client.read_resource` marshalling of one content item. -/
def resContentItemDump : ResContentItem → String
  | ResContentItem.withText t u =>
    dumpObj 1 ([("type", jsonQuote "text"), ("text", jsonQuote t)] ++ optField "uri" u)
  | ResContentItem.other r => jsonQuote r

/-- The `content_list` built by the `read_resource` loop. -/
def resource_content_list : List ResContentItem → List String
  | [] => []
  | item :: rest => resContentItemDump item :: resource_content_list rest

/-- The `read_resource` protocol result (`result.contents`). -/
structure ReadResourceResult where
  contents : List ResContentItem
deriving DecidableEq

/-- One entry of `result.tools` from `list_tools`: a descriptor with a `name`
attribute, a tuple, or anything else (stringified under an `info` key). -/
inductive RawTool where
  | descriptor (name : String) (description : Option String) (inputSchema : Option String)
  | tup (elems : List String)
  | other (repr : String)
deriving DecidableEq

/-- `mcp_client.list_tools` marshalling of one tool entry; every branch of
the source loop appends a record. -/
def toolDump : RawTool → String
  | RawTool.descriptor n d sch =>
    dumpObj 1 ([("name", jsonQuote n)] ++ optField "description" d ++
               optField "inputSchema" sch)
  | RawTool.tup es =>
    dumpObj 1 [("name", match es[0]? with | some v => jsonQuote v | none => "null"),
               ("description", match es[1]? with | some v => jsonQuote v | none => "null")]
  | RawTool.other r => dumpObj 1 [("info", jsonQuote r)]

/-- The `tool_list` built by the `list_tools` loop. -/
def tool_list : List RawTool → List String
  | [] => []
  | t :: rest => toolDump t :: tool_list rest

/-- One entry of `result.resources` from `list_resources`; `none` means the
attribute is missing (`hasattr` fails). -/
structure RawResource where
  uri : Option String
  name : Option String
  description : Option String
deriving DecidableEq

/-- The `resource_list` built by the `list_resources` loop: the source only
appends when `hasattr(r, 'uri') and hasattr(r, 'name')`, and has no `else`
branch, so records lacking either attribute are skipped. -/
def resource_list : List RawResource → List String
  | [] => []
  | r :: rest =>
    match r.uri, r.name with
    | some u, some n =>
      dumpObj 1 ([("uri", jsonQuote u), ("name", jsonQuote n)] ++
                 optField "description" r.description) :: resource_list rest
    | _, _ => resource_list rest

/-- One argument descriptor of a prompt (`list_prompts`). -/
structure RawPromptArg where
  name : String
  description : Option String
  required : Option Bool
deriving DecidableEq

/-- `list_prompts` marshalling of one prompt argument: a missing description
becomes JSON `null`, a missing `required` becomes `false`. -/
def promptArgDump (a : RawPromptArg) : String :=
  dumpObj 3 [("name", jsonQuote a.name),
             ("description", match a.description with | some d => jsonQuote d | none => "null"),
             ("required", match a.required with | some true => "true" | _ => "false")]

/-- One entry of `result.prompts` from `list_prompts`; `name = none` means
the entry lacks a `name` attribute. -/
structure RawPrompt where
  name : Option String
  description : Option String
  arguments : Option (List RawPromptArg)
deriving DecidableEq

/-- The `prompt_list` built by the `list_prompts` loop: only entries with a
`name` attribute are appended (no `else` branch). -/
def prompt_list : List RawPrompt → List String
  | [] => []
  | p :: rest =>
    match p.name with
    | some n =>
      dumpObj 1 ([("name", jsonQuote n)] ++ optField "description" p.description ++
        (match p.arguments with
         | some args =>
           if args.isEmpty then []
           else [("arguments", dumpArr 2 (args.map promptArgDump))]
         | none => [])) :: prompt_list rest
    | none => prompt_list rest

/-- Content of one message of a `get_prompt` result: a plain string, an
object with a `.text` attribute, or anything else (stringified). -/
inductive PromptMsgContent where
  | plain (s : String)
  | withText (t : String)
  | other (repr : String)
deriving DecidableEq

/-- One message of a `get_prompt` result. -/
structure RawPromptMessage where
  role : Option String
  content : Option PromptMsgContent
deriving DecidableEq

/-- `get_prompt` marshalling of one message: fields only when present. -/
def promptMessageDump (m : RawPromptMessage) : String :=
  dumpObj 2 ((match m.role with | some r => [("role", jsonQuote r)] | none => []) ++
    (match m.content with
     | some (PromptMsgContent.plain s) => [("content", jsonQuote s)]
     | some (PromptMsgContent.withText t) => [("content", jsonQuote t)]
     | some (PromptMsgContent.other r) => [("content", jsonQuote r)]
     | none => []))

/-- The `messages_list` built by the `get_prompt` loop. -/
def messages_list (ms : List RawPromptMessage) : List String :=
  ms.map promptMessageDump

/-- The `get_prompt` protocol result; `messages = none` models a result
without a `messages` attribute. -/
structure GetPromptResult where
  messages : Option (List RawPromptMessage)
deriving DecidableEq

/-! ## MCPClient operations (`mcp_client.py`)

Each method opens a fresh SSE transport and session, performs the handshake,
runs one operation and closes; the whole body is wrapped in
`try: ... except Exception as e: return f"Error: {str(e)}"`.  The transport
and server are abstracted as an `Except String` outcome: `Except.ok` is the
protocol result, `Except.error e` is `str(e)` of the raised exception. -/

/-- `MCPClient.execute_tool`: marshal the content list on success, return
`"Error: " + str(e)` on any exception. -/
def MCPClient.execute_tool (tool_name : String)
    (outcome : Except String CallToolResult) : String :=
  match tool_name, outcome with
  | _, Except.ok result => dumpArr 0 (content_list result.content)
  | _, Except.error e => "Error: " ++ e

/-- `MCPClient.read_resource`. -/
def MCPClient.read_resource (resource_uri : String)
    (outcome : Except String ReadResourceResult) : String :=
  match resource_uri, outcome with
  | _, Except.ok result => dumpArr 0 (resource_content_list result.contents)
  | _, Except.error e => "Error: " ++ e

/-- `MCPClient.list_tools`; the outcome carries the extracted `result.tools`
list. -/
def MCPClient.list_tools (outcome : Except String (List RawTool)) : String :=
  match outcome with
  | Except.ok ts => dumpArr 0 (tool_list ts)
  | Except.error e => "Error: " ++ e

/-- `MCPClient.list_resources`. -/
def MCPClient.list_resources (outcome : Except String (List RawResource)) : String :=
  match outcome with
  | Except.ok rs => dumpArr 0 (resource_list rs)
  | Except.error e => "Error: " ++ e

/-- `MCPClient.list_prompts`. -/
def MCPClient.list_prompts (outcome : Except String (List RawPrompt)) : String :=
  match outcome with
  | Except.ok ps => dumpArr 0 (prompt_list ps)
  | Except.error e => "Error: " ++ e

/-- `arguments or {}` of `MCPClient.get_prompt`: `None` and the empty dict
are both falsy in Python, so both become the empty mapping. -/
def get_prompt_args (arguments : Option (List (String × String))) :
    List (String × String) :=
  match arguments with
  | none => []
  | some a => if a.isEmpty then [] else a

/-- `MCPClient.get_prompt`: `respond` abstracts the server's reply to the
protocol request `(prompt_name, arguments or {})`. -/
def MCPClient.get_prompt
    (respond : String → List (String × String) → Except String GetPromptResult)
    (prompt_name : String) (arguments : Option (List (String × String))) : String :=
  match respond prompt_name (get_prompt_args arguments) with
  | Except.ok result =>
    dumpObj 0 [("messages",
      dumpArr 1 (messages_list (match result.messages with
                                | some ms => ms
                                | none => [])))]
  | Except.error e => "Error: " ++ e

/-! ## Session lifecycle (`mcp_client.py`, every method)

Each method's try-block performs, in order: `streams.__aenter__`,
`session.__aenter__`, `session.initialize`, the operation, then
`session.__aexit__` and `streams.__aexit__`.  There is no `finally` and no
`async with`: an exception raised at any step jumps straight to `except`,
skipping every later step.  `sessionBody failAt` returns the list of steps
attempted and whether the body ran to completion. -/

/-- One step of the per-call session lifecycle. -/
inductive SessStep where
  | openStreams
  | openSession
  | doInit
  | operate
  | closeSession
  | closeStreams
deriving DecidableEq

/-- The straight-line try-block: steps attempted in order until one raises. -/
def sessionBody (failAt : SessStep → Bool) : List SessStep × Bool :=
  if failAt SessStep.openStreams then ([SessStep.openStreams], false)
  else if failAt SessStep.openSession then
    ([SessStep.openStreams, SessStep.openSession], false)
  else if failAt SessStep.doInit then
    ([SessStep.openStreams, SessStep.openSession, SessStep.doInit], false)
  else if failAt SessStep.operate then
    ([SessStep.openStreams, SessStep.openSession, SessStep.doInit,
      SessStep.operate], false)
  else if failAt SessStep.closeSession then
    ([SessStep.openStreams, SessStep.openSession, SessStep.doInit,
      SessStep.operate, SessStep.closeSession], false)
  else if failAt SessStep.closeStreams then
    ([SessStep.openStreams, SessStep.openSession, SessStep.doInit,
      SessStep.operate, SessStep.closeSession, SessStep.closeStreams], false)
  else
    ([SessStep.openStreams, SessStep.openSession, SessStep.doInit,
      SessStep.operate, SessStep.closeSession, SessStep.closeStreams], true)

/-- `MCPClient.execute_tool` instrumented with the attempted session steps. -/
def execute_tool_run (failAt : SessStep → Bool) (cause : String)
    (result : CallToolResult) : List SessStep × String :=
  match sessionBody failAt with
  | (steps, true) => (steps, dumpArr 0 (content_list result.content))
  | (steps, false) => (steps, "Error: " ++ cause)

/-- `MCPClient.read_resource` instrumented with the attempted session steps. -/
def read_resource_run (failAt : SessStep → Bool) (cause : String)
    (result : ReadResourceResult) : List SessStep × String :=
  match sessionBody failAt with
  | (steps, true) => (steps, dumpArr 0 (resource_content_list result.contents))
  | (steps, false) => (steps, "Error: " ++ cause)

/-! ## Hint agent MCP executors (`hint_agent.py`) -/

/-- `hint_agent.execute_mcp_tool`: same marshalling as the client, but its
`except` branch returns
`f"Error executing tool {tool_name}: {str(e)}\n{traceback.format_exc()}"`;
`tb` models the traceback text. -/
def execute_mcp_tool (tool_name tb : String)
    (outcome : Except String CallToolResult) : String :=
  match outcome with
  | Except.ok result => dumpArr 0 (content_list result.content)
  | Except.error e => "Error executing tool " ++ tool_name ++ ": " ++ e ++ "\n" ++ tb

/-- `hint_agent.read_mcp_resource`, analogous. -/
def read_mcp_resource (resource_uri tb : String)
    (outcome : Except String ReadResourceResult) : String :=
  match outcome with
  | Except.ok result => dumpArr 0 (resource_content_list result.contents)
  | Except.error e => "Error reading resource " ++ resource_uri ++ ": " ++ e ++ "\n" ++ tb

/-! ## Challenge agents (`challenge_agents.py`)

The LangGraph state is a message list; `add_messages` appends the values a
node returns.  Messages are the langchain variants used by the sources. -/

/-- One tool call declared by an Assistant message (`tool_call["name"]`,
`tool_call["args"]`, `tool_call["id"]`); the argument mapping is opaque. -/
structure ToolCall where
  name : String
  args : String
  id : String
deriving DecidableEq

/-- One `ToolMessage` appended by `tool_node`. -/
structure ToolMsg where
  content : String
  tool_call_id : String
deriving DecidableEq

/-- The five LangChain tools bound in `create_challenge_agent`. -/
def knownToolNames : List String :=
  ["list_mcp_tools", "list_mcp_resources", "list_mcp_prompts",
   "get_user_info", "read_mcp_resource"]

/-- `tool_node`: for each declared tool call, scan the bound tools for a
matching name and append one `ToolMessage` tagged with the call's id; a call
whose name matches no bound tool appends nothing.  `run` abstracts
`t.ainvoke(tool_args)` of the matched tool. -/
def tool_node (run : ToolCall → String) : List ToolCall → List ToolMsg
  | [] => []
  | tc :: rest =>
    match knownToolNames.find? (fun t => t == tc.name) with
    | some _ => ToolMsg.mk (run tc) tc.id :: tool_node run rest
    | none => tool_node run rest

/-- A LangChain message, tagged as in the sources. -/
inductive Msg where
  | system (content : String)
  | human (content : String)
  | assistant (content : String) (tool_calls : List ToolCall)
  | toolMsg (content : String) (tool_call_id : String)
deriving DecidableEq

/-- `m.type == 'system'`. -/
def isSystem : Msg → Bool
  | Msg.system _ => true
  | _ => false

/-- `last_message.tool_calls` where only Assistant messages carry the
attribute. -/
def msgToolCalls : Msg → List ToolCall
  | Msg.assistant _ tcs => tcs
  | _ => []

/-- `challenge_node`'s system-message logic: the challenge system message
`sys` (built from the ChallengeProfile) is prepended only when
`len(messages) <= 1 and not any(m.type == 'system' for m in messages)`. -/
def challenge_node_prepend (sys : String) (msgs : List Msg) : List Msg :=
  if msgs.length ≤ 1 ∧ msgs.any isSystem = false then Msg.system sys :: msgs
  else msgs

/-- `should_continue`: route to the tools node exactly when the last message
declares a nonempty list of tool calls; otherwise END (`"__end__"`). -/
def should_continue (msgs : List Msg) : String :=
  match msgs.getLast? with
  | some m => if msgToolCalls m ≠ [] then "tools" else "__end__"
  | none => "__end__"

/-- The tool calls of the last message, as read by `tool_node`. -/
def lastToolCalls (msgs : List Msg) : List ToolCall :=
  match msgs.getLast? with
  | some m => msgToolCalls m
  | none => []

/-- The state delta of the tools node, appended by `add_messages`. -/
def runToolCalls (run : ToolCall → String) (tcs : List ToolCall) : List Msg :=
  (tool_node run tcs).map (fun tm => Msg.toolMsg tm.content tm.tool_call_id)

/-- The compiled graph `START → agent → (should_continue) → tools → agent`,
executed with explicit fuel: `none` means the loop did not reach END within
`fuel` agent turns.  The graph itself carries no turn counter: its only
state is the message list. -/
def graphRun (sys : String) (llm : List Msg → Msg) (run : ToolCall → String) :
    Nat → List Msg → Option (List Msg)
  | 0, _ => none
  | n + 1, msgs =>
    if should_continue (msgs ++ [llm (challenge_node_prepend sys msgs)]) == "tools" then
      graphRun sys llm run n
        (msgs ++ [llm (challenge_node_prepend sys msgs)] ++
         runToolCalls run (lastToolCalls (msgs ++ [llm (challenge_node_prepend sys msgs)])))
    else
      some (msgs ++ [llm (challenge_node_prepend sys msgs)])

/-! ## Orchestrator (`orchestrator_agent.py`) -/

/-- The orchestrator's system prompt. -/
def SYSTEM_PROMPT : String :=
  "You are a Security Testing Orchestrator for MCP vulnerability challenges.\n\n**Available Challenges:**\n- **Challenge 1**: Basic Prompt Injection (Port 9001) ✅ Ready\n- **Challenge 2-10**: Additional challenges (Ports 9002-9010) 🔜 Coming soon\n\n**How to Use:**\nInstead of chatting with me, you should directly select and interact with the challenge agents:\n1. Go back and select a Challenge agent from the dropdown (e.g., \"Challenge1\")\n2. Each Challenge agent connects to its MCP server and can execute real commands\n3. Use commands like:\n   - `list tools` - See available MCP tools\n   - `list resources` - See available MCP resources\n   - `list prompts` - See available MCP prompts\n   - `run tool <name> with <args>` - Execute a tool\n   - `read resource <uri>` - Read a resource\n\n**Example:**\nSwitch to \"Challenge1\" agent and try: `list resources`\n\nI am just the orchestrator - the real action happens in the Challenge agents! 🎯"

/-- `orchestrator_node`'s system-message logic: prepend the system prompt
exactly when no `SystemMessage` is present. -/
def orchestrator_node_prepend (msgs : List Msg) : List Msg :=
  if msgs.any isSystem then msgs else Msg.system SYSTEM_PROMPT :: msgs

/-- The persisted-state effect of one `orchestrator_node` turn.  The node
returns `messages + [response]` where `messages` is the (possibly
system-prepended) invocation list, and the `add_messages` reducer keeps the
messages already in the thread in place (matched by id) and appends the
messages with fresh ids in the order of the returned list; so a newly
prepended System message is appended after the existing conversation,
followed by the response — it does not end up first in the thread. -/
def orchestrator_turn (msgs : List Msg) (response : Msg) : List Msg :=
  if msgs.any isSystem then msgs ++ [response]
  else msgs ++ [Msg.system SYSTEM_PROMPT, response]

/-- The persisted-state effect of one `challenge_node` turn: the node
returns only `[response]`, so `add_messages` appends just the response and
the locally prepended System message is never persisted. -/
def challenge_turn (msgs : List Msg) (response : Msg) : List Msg :=
  msgs ++ [response]

/-- `f"challenge {i}" in last_msg or f"challenge{i}" in last_msg`. -/
def challengeHit (m : String) (i : Nat) : Bool :=
  strContains m ("challenge " ++ toString i) || strContains m ("challenge" ++ toString i)

/-- The `for i in range(1, 11): ... break` loop of `orchestrator_node`. -/
def selectLoop (m sel : String) : List Nat → String
  | [] => sel
  | i :: rest =>
    if challengeHit m i then "Challenge" ++ toString i else selectLoop m sel rest

/-- `orchestrator_node`'s challenge selection: lowercase the last message,
scan i = 1..10 in order, keep the prior selection when nothing matches. -/
def orchestratorSelect (lastMsg prior : String) : String :=
  selectLoop (strLower lastMsg) prior (List.range' 1 10)

/-! ## Heuristic command resolver (`hint_agent.py`, `hint_node`)

`hint_node` lowercases the last message and dispatches through an
`if/elif` chain: tools listing, resource listing, tool execution (with a
username extracted by `re.search(r'(?:user|username)[\s=:]+(\w+)', ...)`),
then resource reading (with a URI extracted from the original, non-lowercased
text by `re.search(r'(\w+://[\w/\-]+)', ...)`). -/

/-- A `\w` character (ASCII). -/
def isWordChar (c : Char) : Bool :=
  c.isAlphanum || c == '_'

/-- A `[\s=:]` character. -/
def isSepChar (c : Char) : Bool :=
  c == ' ' || c == '\t' || c == '\n' || c == '\r' ||
  c.toNat = 11 || c.toNat = 12 || c == '=' || c == ':'

/-- Match a literal at the head of the input, returning the rest. -/
def dropLit : List Char → List Char → Option (List Char)
  | [], cs => some cs
  | l :: ls, c :: cs => if c == l then dropLit ls cs else none
  | _ :: _, [] => none

/-- `[\s=:]+(\w+)` after the literal: the captured word. -/
def sepsThenWord (cs : List Char) : Option (List Char) :=
  let sp := cs.span isSepChar
  if sp.1.isEmpty then none
  else
    let w := sp.2.span isWordChar
    if w.1.isEmpty then none else some w.1

/-- The regex `(?:user|username)[\s=:]+(\w+)` anchored at the current
position (alternatives tried left to right, as `re` does). -/
def matchUserAt (cs : List Char) : Option (List Char) :=
  match dropLit "user".data cs with
  | some rest =>
    match sepsThenWord rest with
    | some w => some w
    | none =>
      match dropLit "username".data cs with
      | some rest2 => sepsThenWord rest2
      | none => none
  | none => none

/-- `re.search` scan for the username pattern (leftmost match). -/
def searchUser : List Char → Option (List Char)
  | [] => none
  | c :: rest =>
    match matchUserAt (c :: rest) with
    | some w => some w
    | none => searchUser rest

/-- The username captured by `re.search(r'(?:user|username)[\s=:]+(\w+)', s)`. -/
def extractUsername (s : String) : Option String :=
  (searchUser s.data).map (fun w => String.mk w)

/-- The regex `(\w+://[\w/\-]+)` anchored at the current position: a greedy
word run must be followed immediately by `://` and a nonempty body. -/
def matchUriAt (cs : List Char) : Option (List Char) :=
  let sc := cs.span isWordChar
  if sc.1.isEmpty then none
  else
    match dropLit "://".data sc.2 with
    | some rest2 =>
      let body := rest2.span (fun c => isWordChar c || c == '/' || c == '-')
      if body.1.isEmpty then none
      else some (sc.1 ++ "://".data ++ body.1)
    | none => none

/-- `re.search` scan for the URI pattern (leftmost match). -/
def searchUri : List Char → Option (List Char)
  | [] => none
  | c :: rest =>
    match matchUriAt (c :: rest) with
    | some w => some w
    | none => searchUri rest

/-- The URI captured by `re.search(r'(\w+://[\w/\-]+)', s)`. -/
def extractUri (s : String) : Option String :=
  (searchUri s.data).map (fun w => String.mk w)

/-- The protocol operation the heuristic strategy resolves to. -/
inductive HintOp where
  | listTools
  | listResources
  | execTool (name : String) (username : String)
  | readRes (uri : String)
deriving DecidableEq

/-- The MCP-dispatch portion of `hint_node`: which operation (if any) the
`if/elif` chain executes for the last human message `msg`.  Branch order is
the source order; the URI branch matches against the original text. -/
def hint_node_resolve (msg : String) : Option HintOp :=
  let m := strLower msg
  if strContains m "list tools" || strContains m "show tools" ||
     strContains m "available tools" then
    some HintOp.listTools
  else if strContains m "list resources" || strContains m "show resources" ||
          strContains m "available resources" then
    some HintOp.listResources
  else if strContains m "run tool" || strContains m "execute tool" ||
          strContains m "call tool" || strContains m "use tool" then
    if strContains m "get_user_info" then
      match extractUsername m with
      | some u => some (HintOp.execTool "get_user_info" u)
      | none => none
    else none
  else if strContains m "read resource" || strContains m "access resource" ||
          strContains m "get resource" || strContains m "fetch resource" then
    match extractUri msg with
    | some u => some (HintOp.readRes u)
    | none => none
  else none

/-! ## Helper lemmas -/

/-- `find?` succeeds exactly when `any` holds. -/
theorem find?_isSome_eq_any {α : Type} [BEq α] (p : α → Bool) (l : List α) :
    (l.find? p).isSome = l.any p := by
  induction l with
  | nil => rfl
  | cons a t ih => cases h : p a <;> simp [List.find?, List.any_cons, h, ih]

/-- A predicate that `any` refutes is counted zero times. -/
theorem countP_eq_zero_of_any_eq_false {α : Type} (p : α → Bool) (l : List α)
    (h : l.any p = false) : l.countP p = 0 := by
  induction l with
  | nil => rfl
  | cons a t ih =>
    rw [List.any_cons, Bool.or_eq_false_iff] at h
    simp [List.countP_cons, ih h.2, h.1]

/-! ## Claim C1 -/

/-- Claim C1, counterexample: an Assistant message declaring one tool call
whose name matches no bound tool yields zero ToolResult messages, so the
count of results is not equal to the count of declared operations. -/
theorem C1_counterexample :
    tool_node (fun _ => "marshalled") [ToolCall.mk "unknown_tool" "\x7b\x7d" "call_1"] = [] ∧
    ([ToolCall.mk "unknown_tool" "\x7b\x7d" "call_1"] : List ToolCall).length = 1 := by
  constructor
  · decide
  · rfl

/-- Claim C1 (amended): `tool_node` appends exactly one ToolResult per
declared operation whose name matches a bound tool, in declaration order,
each tagged with the originating correlation id; operations with
unrecognized names produce no ToolResult. -/
theorem C1_results_in_declaration_order (run : ToolCall → String)
    (tcs : List ToolCall) :
    tool_node run tcs =
      (tcs.filter (fun tc => knownToolNames.any (fun t => t == tc.name))).map
        (fun tc => ToolMsg.mk (run tc) tc.id) := by
  induction tcs with
  | nil => rfl
  | cons tc rest ih =>
    cases hf : knownToolNames.find? (fun t => t == tc.name) with
    | none =>
      have ha : knownToolNames.any (fun t => t == tc.name) = false := by
        rw [← find?_isSome_eq_any, hf]; rfl
      simp [tool_node, hf, List.filter_cons, ha, ih]
    | some w =>
      have ha : knownToolNames.any (fun t => t == tc.name) = true := by
        rw [← find?_isSome_eq_any, hf]; rfl
      simp [tool_node, hf, List.filter_cons, ha, ih]

/-! ## Claim C2 -/

/-- Claim C2 (code bug): the compiled challenge graph imposes no turn bound.
With any reasoning capability that declares at least one operation on every
invocation, the loop fails to reach END within any fuel bound whatsoever,
and no truncation notice exists anywhere in the graph. -/
theorem C2_no_turn_bound (sys : String) (llm : List Msg → Msg)
    (run : ToolCall → String)
    (h : ∀ ms : List Msg, msgToolCalls (llm ms) ≠ []) :
    ∀ (fuel : Nat) (msgs : List Msg), graphRun sys llm run fuel msgs = none := by
  intro fuel
  induction fuel with
  | zero => intro msgs; rfl
  | succ n ih =>
    intro msgs
    have hsc : should_continue
        (msgs ++ [llm (challenge_node_prepend sys msgs)]) = "tools" := by
      unfold should_continue
      rw [List.getLast?_concat]
      exact if_pos (h _)
    simp only [graphRun, hsc, beq_self_eq_true, if_true]
    exact ih _

/-- Witness for C2: a concrete always-calling capability loops past 7 turns. -/
theorem C2_no_turn_bound_witness :
    graphRun "sys"
      (fun _ => Msg.assistant "" [ToolCall.mk "list_mcp_tools" "\x7b\x7d" "c0"])
      (fun _ => "") 7 [] = none :=
  C2_no_turn_bound "sys"
    (fun _ => Msg.assistant "" [ToolCall.mk "list_mcp_tools" "\x7b\x7d" "c0"])
    (fun _ => "") (fun _ => by simp [msgToolCalls]) 7 []

/-! ## Claim C3 -/

/-- Claim C3, counterexample: on a transport failure `MCPClient.execute_tool`
returns `"Error: <cause>"` without the operation name, and the hint agent's
executor returns a string that does not carry the bare `Error:` prefix, so
the claimed conjunction (prefix and operation name) holds in neither
implementation. -/
theorem C3_counterexample :
    MCPClient.execute_tool "get_user_info" (Except.error "connection refused") =
      "Error: connection refused" ∧
    strContains
      (MCPClient.execute_tool "get_user_info" (Except.error "connection refused"))
      "get_user_info" = false ∧
    strStartsWith
      (execute_mcp_tool "get_user_info" "traceback-text" (Except.error "boom"))
      "Error:" = false := by
  refine ⟨rfl, by decide, by decide⟩

/-- Claim C3 (amended): every session-client operation is total (returns a
string, never raises) and on failure returns a fixed human-readable shape:
the `MCPClient` operations return `"Error: " ++ cause` (prefix but no
operation name), while the hint agent's operations name the operation but
use the longer `Error executing tool .. :` / `Error reading resource .. :`
prefixes, followed by the traceback. -/
theorem C3_error_string_shapes (name uri cause tb : String) :
    MCPClient.execute_tool name (Except.error cause) = "Error: " ++ cause ∧
    MCPClient.read_resource uri (Except.error cause) = "Error: " ++ cause ∧
    MCPClient.list_tools (Except.error cause) = "Error: " ++ cause ∧
    MCPClient.list_resources (Except.error cause) = "Error: " ++ cause ∧
    MCPClient.list_prompts (Except.error cause) = "Error: " ++ cause ∧
    (∀ args, MCPClient.get_prompt (fun _ _ => Except.error cause) name args =
      "Error: " ++ cause) ∧
    execute_mcp_tool name tb (Except.error cause) =
      "Error executing tool " ++ name ++ ": " ++ cause ++ "\n" ++ tb ∧
    read_mcp_resource uri tb (Except.error cause) =
      "Error reading resource " ++ uri ++ ": " ++ cause ++ "\n" ++ tb :=
  ⟨rfl, rfl, rfl, rfl, rfl, fun _ => rfl, rfl, rfl⟩

/-! ## Claim C4 -/

/-- Claim C4 (code bug): the try-block has no `finally`, so when the
operation raises (here: `call_tool` fails) or the handshake raises, neither
`session.__aexit__` nor `streams.__aexit__` is attempted before the error
string is returned; the closes run only on the fully successful path. -/
theorem C4_teardown_skipped :
    (execute_tool_run (fun s => s == SessStep.operate) "unknown tool"
      (CallToolResult.mk [])).1 =
      [SessStep.openStreams, SessStep.openSession, SessStep.doInit,
       SessStep.operate] ∧
    SessStep.closeSession ∉ (execute_tool_run (fun s => s == SessStep.operate)
      "unknown tool" (CallToolResult.mk [])).1 ∧
    SessStep.closeStreams ∉ (execute_tool_run (fun s => s == SessStep.operate)
      "unknown tool" (CallToolResult.mk [])).1 ∧
    (execute_tool_run (fun s => s == SessStep.operate) "unknown tool"
      (CallToolResult.mk [])).2 = "Error: unknown tool" ∧
    (read_resource_run (fun s => s == SessStep.doInit) "handshake timeout"
      (ReadResourceResult.mk [])).1 =
      [SessStep.openStreams, SessStep.openSession, SessStep.doInit] ∧
    SessStep.closeStreams ∉ (read_resource_run (fun s => s == SessStep.doInit)
      "handshake timeout" (ReadResourceResult.mk [])).1 ∧
    (execute_tool_run (fun _ => false) "" (CallToolResult.mk [])).1 =
      [SessStep.openStreams, SessStep.openSession, SessStep.doInit,
       SessStep.operate, SessStep.closeSession, SessStep.closeStreams] := by
  decide

/-! ## Claim C5 -/

/-- Claim C5, counterexample: a message containing both `list tools` and
`list resources` resolves to the ListTools operation, because the
tools-listing branch precedes the resources-listing branch; so not every
message containing `list resources` resolves to ListResources. -/
theorem C5_counterexample :
    strContains (strLower "list tools and list resources") "list resources" = true ∧
    hint_node_resolve "list tools and list resources" = some HintOp.listTools ∧
    some HintOp.listTools ≠ some HintOp.listResources := by
  refine ⟨by decide, by decide, by decide⟩

/-- Claim C5 (amended): any message whose lowercased text contains
`list resources` and none of the tools-listing trigger phrases resolves to
ListResources with no arguments, even when it also contains a URI substring
or a tool-execution phrase, since those rules are checked later. -/
theorem C5_list_resources_priority (msg : String)
    (h1 : strContains (strLower msg) "list resources" = true)
    (h2 : strContains (strLower msg) "list tools" = false)
    (h3 : strContains (strLower msg) "show tools" = false)
    (h4 : strContains (strLower msg) "available tools" = false) :
    hint_node_resolve msg = some HintOp.listResources := by
  unfold hint_node_resolve
  simp [h1, h2, h3, h4]

/-- Witness for C5: a message with a tool-execution phrase and a URI still
resolves to ListResources. -/
theorem C5_list_resources_priority_witness :
    hint_node_resolve
      "run tool get_user_info with user=admin, read resource internal://credentials, then list resources" =
      some HintOp.listResources :=
  C5_list_resources_priority _ (by decide) (by decide) (by decide) (by decide)

/-! ## Claim C6 -/

/-- Claim C6, counterexample: a `list_resources` descriptor record lacking a
`uri` attribute is silently dropped by the marshaller — the input has one
record, the normalized output none. -/
theorem C6_counterexample :
    resource_list [RawResource.mk none (some "config") none] = [] ∧
    ([RawResource.mk none (some "config") none] : List RawResource).length = 1 ∧
    MCPClient.list_resources
      (Except.ok [RawResource.mk none (some "config") none]) = "[]" := by
  decide

/-- Claim C6 (amended): the content marshallers (tool results, resource
reads) and the tools marshaller never drop an item — one output record per
input item, in order — but the resource and prompt descriptor marshallers
keep exactly the records carrying the required attributes (`uri` and `name`
for resources, `name` for prompts) and silently drop the rest.  All
marshallers are total functions, so normalization never throws. -/
theorem C6_marshal_drop_behavior :
    (∀ items : List ContentItem, (content_list items).length = items.length) ∧
    (∀ items : List ResContentItem,
      (resource_content_list items).length = items.length) ∧
    (∀ ts : List RawTool, (tool_list ts).length = ts.length) ∧
    (∀ rs : List RawResource,
      (resource_list rs).length =
        (rs.filter (fun r => r.uri.isSome && r.name.isSome)).length) ∧
    (∀ ps : List RawPrompt,
      (prompt_list ps).length = (ps.filter (fun p => p.name.isSome)).length) := by
  refine ⟨?_, ?_, ?_, ?_, ?_⟩
  · intro items
    induction items with
    | nil => rfl
    | cons i t ih => simp [content_list, ih]
  · intro items
    induction items with
    | nil => rfl
    | cons i t ih => simp [resource_content_list, ih]
  · intro ts
    induction ts with
    | nil => rfl
    | cons t rest ih => simp [tool_list, ih]
  · intro rs
    induction rs with
    | nil => rfl
    | cons r rest ih =>
      cases hu : r.uri <;> cases hn : r.name <;>
        simp [resource_list, List.filter_cons, hu, hn, ih]
  · intro ps
    induction ps with
    | nil => rfl
    | cons p rest ih =>
      cases hn : p.name <;> simp [prompt_list, List.filter_cons, hn, ih]

/-! ## Claim C7 -/

/-- Claim C7, counterexample: on a later turn (three messages, none of them
a System message) `challenge_node` does not prepend the system message,
because its guard also requires `len(messages) <= 1`; the reasoning
capability is then invoked on a conversation with no System message at all. -/
theorem C7_counterexample :
    challenge_node_prepend "SYS"
      [Msg.human "hello", Msg.assistant "hi" [], Msg.human "again"] =
      [Msg.human "hello", Msg.assistant "hi" [], Msg.human "again"] ∧
    [Msg.human "hello", Msg.assistant "hi" [], Msg.human "again"].any isSystem
      = false := by
  decide

/-- Claim C7 (amended): `orchestrator_node` prepends its System message to
the invocation list exactly when none is present, so such an invocation sees
exactly one System message, in first position; but the persisted thread
state after that turn carries the System message appended after the existing
conversation (and before the response), because `add_messages` keeps
existing messages in place — so later invocations find a System message
present (hence never prepend again, and exactly one ever exists) though not
in first position.  `challenge_node` prepends only when the conversation has
at most one message and contains no System message, leaves longer
conversations untouched, and persists only the response, so its later-turn
invocations see no System message at all. -/
theorem C7_system_message_prepend (sys : String) (msgs : List Msg) (resp : Msg) :
    (msgs.any isSystem = false →
      orchestrator_node_prepend msgs = Msg.system SYSTEM_PROMPT :: msgs ∧
      (orchestrator_node_prepend msgs).countP isSystem = 1) ∧
    (msgs.any isSystem = true → orchestrator_node_prepend msgs = msgs) ∧
    (msgs.any isSystem = false →
      orchestrator_turn msgs resp = msgs ++ [Msg.system SYSTEM_PROMPT, resp] ∧
      (isSystem resp = false →
        (orchestrator_turn msgs resp).countP isSystem = 1) ∧
      orchestrator_node_prepend (orchestrator_turn msgs resp) =
        orchestrator_turn msgs resp) ∧
    (msgs.any isSystem = true → orchestrator_turn msgs resp = msgs ++ [resp]) ∧
    (msgs.length ≤ 1 → msgs.any isSystem = false →
      challenge_node_prepend sys msgs = Msg.system sys :: msgs) ∧
    (1 < msgs.length → challenge_node_prepend sys msgs = msgs) ∧
    (msgs ≠ [] → msgs.any isSystem = false → isSystem resp = false →
      (challenge_node_prepend sys (challenge_turn msgs resp)).any isSystem
        = false) := by
  refine ⟨?_, ?_, ?_, ?_, ?_, ?_, ?_⟩
  · intro h
    have he : orchestrator_node_prepend msgs = Msg.system SYSTEM_PROMPT :: msgs := by
      unfold orchestrator_node_prepend
      simp [h]
    refine ⟨he, ?_⟩
    rw [he, List.countP_cons]
    simp [isSystem, countP_eq_zero_of_any_eq_false _ _ h]
  · intro h
    unfold orchestrator_node_prepend
    simp [h]
  · intro h
    refine ⟨?_, ?_, ?_⟩
    · unfold orchestrator_turn
      simp [h]
    · intro hr
      have he : orchestrator_turn msgs resp =
          msgs ++ [Msg.system SYSTEM_PROMPT, resp] := by
        unfold orchestrator_turn
        simp [h]
      rw [he, List.countP_append, countP_eq_zero_of_any_eq_false _ _ h,
        List.countP_cons, List.countP_cons, List.countP_nil, hr]
      simp [isSystem]
    · unfold orchestrator_node_prepend orchestrator_turn
      simp [h, List.any_append, List.any_cons, isSystem]
  · intro h
    unfold orchestrator_turn
    simp [h]
  · intro hlen hsys
    unfold challenge_node_prepend
    rw [if_pos ⟨hlen, hsys⟩]
  · intro hlen
    unfold challenge_node_prepend
    rw [if_neg (fun hc => absurd hc.1 (by omega))]
  · intro hne h hr
    have hpos : 0 < msgs.length := List.length_pos.mpr hne
    have hlen : 1 < (challenge_turn msgs resp).length := by
      unfold challenge_turn
      rw [List.length_append]
      simp only [List.length_cons, List.length_nil]
      omega
    have hid : challenge_node_prepend sys (challenge_turn msgs resp) =
        challenge_turn msgs resp := by
      unfold challenge_node_prepend
      rw [if_neg (fun hc => absurd hc.1 (by omega))]
    rw [hid]
    unfold challenge_turn
    simp [List.any_append, List.any_cons, h, hr]

/-- Witness for C7: a first-turn challenge conversation is prepended, the
orchestrator prepends into an empty conversation, and a first orchestrator
turn from a one-Human thread persists the System message in second
position, after the Human message. -/
theorem C7_system_message_prepend_witness :
    challenge_node_prepend "SYS" [Msg.human "hello"] =
      [Msg.system "SYS", Msg.human "hello"] ∧
    orchestrator_node_prepend [] = [Msg.system SYSTEM_PROMPT] ∧
    orchestrator_turn [Msg.human "hello"] (Msg.assistant "ok" []) =
      [Msg.human "hello", Msg.system SYSTEM_PROMPT, Msg.assistant "ok" []] := by
  refine ⟨?_, ?_, ?_⟩
  · exact (C7_system_message_prepend "SYS" [Msg.human "hello"]
      (Msg.assistant "ok" [])).2.2.2.2.1 (by decide) (by decide)
  · exact ((C7_system_message_prepend "SYS" [] (Msg.assistant "ok" [])).1
      (by decide)).1
  · exact ((C7_system_message_prepend "SYS" [Msg.human "hello"]
      (Msg.assistant "ok" [])).2.2.1 (by decide)).1

/-! ## Claim C8 -/

/-- Claim C8: normalization is a pure function of the raw response, so two
runs on the same input produce byte-identical serialized text; the concrete
evaluations pin down the fixed field order (insertion order of the source
dicts) and the two-space indentation of `json.dumps(..., indent=2)`. -/
theorem C8_normalize_deterministic :
    (∀ (name : String) (o : Except String CallToolResult),
      MCPClient.execute_tool name o = MCPClient.execute_tool name o) ∧
    (∀ o : Except String (List RawTool),
      MCPClient.list_tools o = MCPClient.list_tools o) ∧
    MCPClient.execute_tool "get_user_info"
      (Except.ok (CallToolResult.mk
        [ContentItem.withText "hi", ContentItem.other "raw"])) =
      "[\n  \x7b\n    \"type\": \"text\",\n    \"text\": \"hi\"\n  \x7d,\n  \"raw\"\n]" ∧
    MCPClient.list_tools
      (Except.ok [RawTool.descriptor "get_user_info" (some "Get info") none]) =
      "[\n  \x7b\n    \"name\": \"get_user_info\",\n    \"description\": \"Get info\"\n  \x7d\n]" := by
  refine ⟨fun _ _ => rfl, fun _ => rfl, by decide, by decide⟩

/-! ## Claim C9 -/

/-- The break-on-first-hit loop returns the challenge of the least matching
index in a strictly ascending candidate list. -/
theorem selectLoop_of_min (m sel : String) :
    ∀ l : List Nat, l.Pairwise (· < ·) →
      ∀ i : Nat, i ∈ l → challengeHit m i = true →
        (∀ j, j ∈ l → j < i → challengeHit m j = false) →
        selectLoop m sel l = "Challenge" ++ toString i := by
  intro l
  induction l with
  | nil => intro _ i hmem; cases hmem
  | cons k rest ih =>
    intro hpw i hmem hhit hmin
    rw [List.pairwise_cons] at hpw
    cases hck : challengeHit m k with
    | true =>
      have hik : i = k := by
        rcases List.mem_cons.mp hmem with h | h
        · exact h
        · exfalso
          have hfalse := hmin k (List.mem_cons_self k rest) (hpw.1 i h)
          rw [hck] at hfalse
          exact Bool.noConfusion hfalse
      subst hik
      simp [selectLoop, hck]
    | false =>
      have hik : i ≠ k := by
        intro he
        rw [he, hck] at hhit
        exact Bool.noConfusion hhit
      have hmem2 : i ∈ rest := by
        rcases List.mem_cons.mp hmem with h | h
        · exact absurd h hik
        · exact h
      have hrec := ih hpw.2 i hmem2 hhit
        (fun j hj hlt => hmin j (List.mem_cons_of_mem k hj) hlt)
      simp [selectLoop, hck, hrec]

/-- When no candidate matches, the loop keeps the prior selection. -/
theorem selectLoop_of_none (m sel : String) :
    ∀ l : List Nat, (∀ j, j ∈ l → challengeHit m j = false) →
      selectLoop m sel l = sel := by
  intro l
  induction l with
  | nil => intro _; rfl
  | cons k rest ih =>
    intro h
    have hk := h k (List.mem_cons_self k rest)
    simp [selectLoop, hk, ih (fun j hj => h j (List.mem_cons_of_mem k hj))]

/-- Claim C9: the orchestrator selects `Challenge{i}` for the smallest
`i ∈ 1..10` whose trigger occurs in the lowercased last message, keeps the
prior selection when none occurs, and a message mentioning only
challenge 10 selects Challenge1 because `"challenge 1"` is a substring of
`"challenge 10"`. -/
theorem C9_smallest_challenge_selected (msg prior : String) :
    (∀ i : Nat, 1 ≤ i → i ≤ 10 → challengeHit (strLower msg) i = true →
      (∀ j : Nat, j < i → 1 ≤ j → challengeHit (strLower msg) j = false) →
      orchestratorSelect msg prior = "Challenge" ++ toString i) ∧
    ((∀ i : Nat, 1 ≤ i → i ≤ 10 → challengeHit (strLower msg) i = false) →
      orchestratorSelect msg prior = prior) ∧
    orchestratorSelect "Try challenge 10 now" "Challenge7" = "Challenge1" := by
  have hrange : List.range' 1 10 = [1, 2, 3, 4, 5, 6, 7, 8, 9, 10] := rfl
  refine ⟨?_, ?_, ?_⟩
  · intro i h1 h10 hhit hmin
    unfold orchestratorSelect
    apply selectLoop_of_min _ _ _ ?hpw i ?hmem hhit ?hall
    case hpw => rw [hrange]; decide
    case hmem => rw [hrange]; interval_cases i <;> decide
    case hall =>
      intro j hj hlt
      apply hmin j hlt
      rw [hrange] at hj
      fin_cases hj <;> omega
  · intro hnone
    unfold orchestratorSelect
    apply selectLoop_of_none
    intro j hj
    rw [hrange] at hj
    fin_cases hj <;> exact hnone _ (by omega) (by omega)
  · decide

/-- Witness for C9: a message naming challenge 3 selects Challenge3. -/
theorem C9_smallest_challenge_selected_witness :
    orchestratorSelect "please load challenge 3" "" = "Challenge3" :=
  (C9_smallest_challenge_selected "please load challenge 3" "").1 3
    (by decide) (by decide) (by decide) (by decide)

/-! ## Claim C10 -/

/-- Claim C10: `get_prompt` computes `arguments or {}`, and both `None` and
the (falsy) empty mapping yield the empty mapping, so the protocol request
and the returned string agree for every server behaviour `respond`. -/
theorem C10_get_prompt_none_eq_empty
    (respond : String → List (String × String) → Except String GetPromptResult)
    (prompt_name : String) :
    MCPClient.get_prompt respond prompt_name none =
      MCPClient.get_prompt respond prompt_name (some []) ∧
    get_prompt_args none = get_prompt_args (some []) :=
  ⟨rfl, rfl⟩
